import Mathlib

/-!
Verification of the Mumbai Railway simulation engine
(src/react-app/src/components/MumbaiRailway.tsx).

The component's pure logic is embedded shallowly:
* JavaScript numbers are modelled as exact rationals (`ℚ`); integer-valued
  quantities (passenger counts, array indices) as `ℤ`.
* Every `Math.random()` call site is replaced by an explicit draw parameter
  (a rational in `[0,1)`), threaded through records of draws, so that
  properties quantify over all possible draws.
* JavaScript array indexing that could read `undefined` (and would then
  throw on member access) is modelled by `Option`: a function that indexes
  out of range returns `none`.
* `Date.now()` / timestamps are modelled as an explicit `now : ℚ`
  (milliseconds) parameter, and display timestamps as plain strings.
-/

namespace MumbaiRailway

/-- Train status union type from the `Train` interface
(`'Running' | 'Delayed' | 'On Time' | 'Cancelled' | 'Critical'`). -/
inductive Status where
  | Running
  | Delayed
  | OnTime
  | Cancelled
  | Critical
deriving DecidableEq, Repr

/-- Direction union type (`'UP' | 'DOWN'`). -/
inductive Direction where
  | UP
  | DOWN
deriving DecidableEq, Repr

/-- One entry of the `stationData` array: name, latitude, longitude, line
membership and category string. -/
structure StationData where
  name : String
  lat : ℚ
  lon : ℚ
  line : String
  category : String
deriving DecidableEq, Repr

instance : Inhabited StationData := ⟨⟨"", 0, 0, "", ""⟩⟩

/-- The `stationData` literal from MumbaiRailway.tsx (65 stations across the
Western, Central Main and Trans-Harbour lines), with exact decimal
coordinates. The `category` field embeds the source's `type` field. -/
def stationData : List StationData := [
  -- Western Line
  ⟨"Churchgate", 18.9322, 72.8264, "Western", "Terminus"⟩,
  ⟨"Marine Lines", 18.9434, 72.8234, "Western", "Regular"⟩,
  ⟨"Charni Road", 18.9515, 72.8193, "Western", "Regular"⟩,
  ⟨"Grant Road", 18.9659, 72.8153, "Western", "Regular"⟩,
  ⟨"Mumbai Central", 18.9693, 72.8209, "Western", "Junction"⟩,
  ⟨"Mahalaxmi", 18.9827, 72.8269, "Western", "Regular"⟩,
  ⟨"Lower Parel", 18.9961, 72.8313, "Western", "Regular"⟩,
  ⟨"Elphinstone Road", 19.0077, 72.8311, "Western", "Junction"⟩,
  ⟨"Dadar", 19.0176, 72.8562, "Western", "Major Junction"⟩,
  ⟨"Bandra", 19.0544, 72.8407, "Western", "Major"⟩,
  ⟨"Khar Road", 19.0728, 72.8377, "Western", "Regular"⟩,
  ⟨"Santacruz", 19.0815, 72.8404, "Western", "Regular"⟩,
  ⟨"Vile Parle", 19.0989, 72.8472, "Western", "Regular"⟩,
  ⟨"Andheri", 19.1197, 72.8462, "Western", "Major"⟩,
  ⟨"Jogeshwari", 19.1344, 72.8514, "Western", "Regular"⟩,
  ⟨"Ram Mandir", 19.1415, 72.8400, "Western", "Regular"⟩,
  ⟨"Goregaon", 19.1540, 72.8503, "Western", "Regular"⟩,
  ⟨"Malad", 19.1875, 72.8482, "Western", "Regular"⟩,
  ⟨"Kandivali", 19.2084, 72.8527, "Western", "Regular"⟩,
  ⟨"Borivali", 19.2307, 72.8567, "Western", "Major"⟩,
  ⟨"Dahisar", 19.2544, 72.8610, "Western", "Regular"⟩,
  ⟨"Mira Road", 19.2952, 72.8739, "Western", "Regular"⟩,
  ⟨"Bhayandar", 19.3017, 72.8517, "Western", "Regular"⟩,
  ⟨"Naigaon", 19.3589, 72.8644, "Western", "Regular"⟩,
  ⟨"Vasai Road", 19.3919, 72.8397, "Western", "Junction"⟩,
  ⟨"Nallasopara", 19.4170, 72.8119, "Western", "Regular"⟩,
  ⟨"Virar", 19.4559, 72.8081, "Western", "Terminus"⟩,
  -- Central Line (Main)
  ⟨"CST", 18.9398, 72.8355, "Central Main", "Terminus"⟩,
  ⟨"Masjid", 18.9472, 72.8317, "Central Main", "Regular"⟩,
  ⟨"Sandhurst Road", 18.9566, 72.8415, "Central Main", "Regular"⟩,
  ⟨"Dockyard Road", 18.9671, 72.8453, "Central Main", "Regular"⟩,
  ⟨"Reay Road", 18.9743, 72.8467, "Central Main", "Regular"⟩,
  ⟨"Cotton Green", 18.9885, 72.8511, "Central Main", "Regular"⟩,
  ⟨"Sewri", 18.9968, 72.8566, "Central Main", "Regular"⟩,
  ⟨"Wadala Road", 19.0144, 72.8577, "Central Main", "Regular"⟩,
  ⟨"Kings Circle", 19.0269, 72.8590, "Central Main", "Regular"⟩,
  ⟨"Mahim", 19.0441, 72.8397, "Central Main", "Junction"⟩,
  ⟨"Bandra Central", 19.0544, 72.8407, "Central Main", "Major"⟩,
  ⟨"Khar Road Central", 19.0728, 72.8377, "Central Main", "Regular"⟩,
  ⟨"Kurla", 19.0653, 72.8789, "Central Main", "Major Junction"⟩,
  ⟨"Vidyavihar", 19.0825, 72.8970, "Central Main", "Regular"⟩,
  ⟨"Ghatkopar", 19.0864, 72.9081, "Central Main", "Major"⟩,
  ⟨"Vikhroli", 19.1056, 72.9259, "Central Main", "Regular"⟩,
  ⟨"Kanjurmarg", 19.1289, 72.9378, "Central Main", "Regular"⟩,
  ⟨"Bhandup", 19.1444, 72.9378, "Central Main", "Regular"⟩,
  ⟨"Nahur", 19.1547, 72.9556, "Central Main", "Regular"⟩,
  ⟨"Mulund", 19.1722, 72.9561, "Central Main", "Regular"⟩,
  ⟨"Thane", 19.1972, 72.9828, "Central Main", "Major"⟩,
  ⟨"Kalwa", 19.2192, 73.0000, "Central Main", "Regular"⟩,
  ⟨"Mumbra", 19.2194, 73.0342, "Central Main", "Regular"⟩,
  ⟨"Diva", 19.2542, 73.0239, "Central Main", "Junction"⟩,
  ⟨"Kopar", 19.2692, 73.0539, "Central Main", "Regular"⟩,
  ⟨"Dombivli", 19.2164, 73.0864, "Central Main", "Major"⟩,
  ⟨"Thakurli", 19.1972, 73.1122, "Central Main", "Regular"⟩,
  ⟨"Kalyan", 19.2437, 73.1355, "Central Main", "Major Junction"⟩,
  -- Trans-Harbour Line
  ⟨"Thane Trans", 19.1972, 72.9828, "Trans-Harbour", "Junction"⟩,
  ⟨"Airoli", 19.1586, 72.9972, "Trans-Harbour", "Regular"⟩,
  ⟨"Ghansoli", 19.1197, 73.0142, "Trans-Harbour", "Regular"⟩,
  ⟨"Rabale", 19.1289, 73.0203, "Trans-Harbour", "Regular"⟩,
  ⟨"Belapur CBD", 19.0378, 73.0158, "Trans-Harbour", "Major"⟩,
  ⟨"Kharghar", 19.0447, 73.0669, "Trans-Harbour", "Regular"⟩,
  ⟨"Mansarovar", 19.0331, 73.0708, "Trans-Harbour", "Regular"⟩,
  ⟨"Khandeshwar", 19.0275, 73.0847, "Trans-Harbour", "Regular"⟩,
  ⟨"Panvel", 18.9894, 73.1169, "Trans-Harbour", "Terminus"⟩,
  ⟨"Nerul", 19.0328, 73.0158, "Trans-Harbour", "Regular"⟩,
  ⟨"Juinagar", 19.0447, 73.0067, "Trans-Harbour", "Regular"⟩]

/-- `stationData.filter(s => s.line === train.line)`, the per-line ordered
station list recomputed by the initializer and by every tick. -/
def lineStations (line : String) : List StationData :=
  stationData.filter (fun s => s.line == line)

/-- The `Train` interface. `eta` and `startTime` (JS `Date`s) are modelled
as rational epoch milliseconds; the optional `currentSpeed` as `Option ℚ`. -/
structure Train where
  id : String
  name : String
  status : Status
  route : String
  line : String
  current : String
  next : String
  currentStation : String
  nextStation : String
  estimatedTime : String
  eta : ℚ
  delay : ℚ
  passengers : ℤ
  speed : ℚ
  currentSpeed : Option ℚ
  lat : ℚ
  lon : ℚ
  positionInSegment : ℚ
  startStation : String
  direction : Direction
  startTime : ℚ
  distanceToNext : ℚ
deriving DecidableEq, Repr

/-- The `DisruptionFactors` interface: eight named levels. -/
structure DisruptionFactors where
  rushHour : ℚ
  weather : ℚ
  junctionCongestion : ℚ
  equipmentReliability : ℚ
  festivalCrowds : ℚ
  platformStrain : ℚ
  staffEfficiency : ℚ
  externalDelays : ℚ
deriving DecidableEq, Repr

/-- The all-zero initial value of the `disruptionFactors` state. -/
def initialDisruptionFactors : DisruptionFactors := ⟨0, 0, 0, 0, 0, 0, 0, 0⟩

/-- The keys of `DisruptionFactors` (`keyof DisruptionFactors`). -/
inductive FactorName where
  | rushHour
  | weather
  | junctionCongestion
  | equipmentReliability
  | festivalCrowds
  | platformStrain
  | staffEfficiency
  | externalDelays
deriving DecidableEq, Repr

/-- Dynamic read `prev[factor]` of a disruption-factor field. -/
def getFactor (f : FactorName) (df : DisruptionFactors) : ℚ :=
  match f with
  | .rushHour => df.rushHour
  | .weather => df.weather
  | .junctionCongestion => df.junctionCongestion
  | .equipmentReliability => df.equipmentReliability
  | .festivalCrowds => df.festivalCrowds
  | .platformStrain => df.platformStrain
  | .staffEfficiency => df.staffEfficiency
  | .externalDelays => df.externalDelays

/-- `addDisruptionFactor`: `{...prev, [factor]: Math.min(prev[factor] + 1, 5)}`. -/
def addDisruptionFactor (f : FactorName) (df : DisruptionFactors) : DisruptionFactors :=
  match f with
  | .rushHour => { df with rushHour := min (df.rushHour + 1) 5 }
  | .weather => { df with weather := min (df.weather + 1) 5 }
  | .junctionCongestion => { df with junctionCongestion := min (df.junctionCongestion + 1) 5 }
  | .equipmentReliability => { df with equipmentReliability := min (df.equipmentReliability + 1) 5 }
  | .festivalCrowds => { df with festivalCrowds := min (df.festivalCrowds + 1) 5 }
  | .platformStrain => { df with platformStrain := min (df.platformStrain + 1) 5 }
  | .staffEfficiency => { df with staffEfficiency := min (df.staffEfficiency + 1) 5 }
  | .externalDelays => { df with externalDelays := min (df.externalDelays + 1) 5 }

/-- A sequence of user increment clicks, applied left to right. -/
def applyIncrements (l : List FactorName) (df : DisruptionFactors) : DisruptionFactors :=
  l.foldl (fun d f => addDisruptionFactor f d) df

/-- JavaScript truncation toward zero (the `ToInteger` step of the `%`
operator on numbers). -/
def jsTrunc (q : ℚ) : ℤ :=
  if q < 0 then ⌈q⌉ else ⌊q⌋

/-- JavaScript's remainder operator `a % b` on numbers (sign of the
dividend, truncated division), for `b ≠ 0`. -/
def jsMod (a b : ℚ) : ℚ :=
  a - b * jsTrunc (a / b)

/-- JavaScript `Array.prototype.findIndex`: index of the first match, `-1`
when there is none. -/
def jsFindIndex (p : StationData → Bool) (l : List StationData) : ℤ :=
  if l.findIdx p < l.length then (l.findIdx p : ℤ) else -1

/-- JavaScript array read `l[i]`: `none` models the `undefined` result of an
out-of-range index (the source would then throw on member access). -/
def jsGet (l : List StationData) (i : ℤ) : Option StationData :=
  if 0 ≤ i then l[i.toNat]? else none

/-- The delay multiplier accumulated from the disruption factors in
`updateTrainPositions` (lines 362-366):
`1 + 0.5·rushHour + 0.3·weather + 0.4·junctionCongestion + 0.6·equipmentReliability`. -/
def delayMultiplier (f : DisruptionFactors) : ℚ :=
  1 + f.rushHour * 0.5 + f.weather * 0.3 + f.junctionCongestion * 0.4
    + f.equipmentReliability * 0.6

/-- The four `Math.random()` draws made per train by one position tick, in
source order: the delay increment (line 368), the displayed minutes
(line 381), the passenger delta (line 382) and the ETA offset (line 383). -/
structure TickDraws where
  delayDraw : ℚ
  estDraw : ℚ
  passDraw : ℚ
  etaDraw : ℚ
deriving DecidableEq, Repr

/-- The object literal returned by `updateTrainPositions` for one train
(lines 370-384), given the resolved current/next stations and the new
segment progress. -/
def tickedTrain (train : Train) (factors : DisruptionFactors) (now : ℚ)
    (d : TickDraws) (cur nxt : StationData) (pos : ℚ) : Train :=
  let newDelay := train.delay + d.delayDraw * 0.5 * delayMultiplier factors
  { train with
    current := cur.name
    next := nxt.name
    currentStation := cur.name
    nextStation := nxt.name
    positionInSegment := pos
    lat := cur.lat + (nxt.lat - cur.lat) * pos
    lon := cur.lon + (nxt.lon - cur.lon) * pos
    delay := newDelay
    status := if newDelay > 5 then .Critical else if newDelay > 2 then .Delayed else .OnTime
    estimatedTime := toString (⌊d.estDraw * 8⌋ + 2) ++ " mins"
    passengers := min (train.passengers + ⌊d.passDraw * 50 - 20⌋) 2000
    eta := now + (d.etaDraw * 8 + 3) * 60000 }

/-- The per-train body of `updateTrainPositions` (lines 331-385). Returns
`none` exactly when a station lookup indexes out of range (a JS crash);
returns the train unchanged when its line has fewer than two stations. -/
def updateTrainPosition (factors : DisruptionFactors) (now : ℚ) (d : TickDraws)
    (train : Train) : Option Train :=
  let ls := lineStations train.line
  if ls.length < 2 then some train else
  let pos1 := train.positionInSegment + 0.05
  let ci0 : ℤ := jsFindIndex (fun s => s.name == train.current) ls
  let ni0 : ℤ := ci0 + 1
  let st : ℚ × ℤ × ℤ :=
    if 1 ≤ pos1 then
      let ci1 := ni0
      let ni1 := min (ci1 + 1) ((ls.length : ℤ) - 1)
      if (ls.length : ℤ) - 1 ≤ ci1 then ((0 : ℚ), (0 : ℤ), (1 : ℤ))
      else ((0 : ℚ), ci1, ni1)
    else (pos1, ci0, ni0)
  match jsGet ls st.2.1, jsGet ls st.2.2 with
  | some cur, some nxt => some (tickedTrain train factors now d cur nxt st.1)
  | _, _ => none

/-- The eight `Math.random()` draws consumed per train by the initializer,
in source order: base passengers (line 231), base delay (line 232),
displayed minutes (line 244), ETA offset (line 245), speed (line 248),
current speed (line 249), start-time offset (line 255) and distance to the
next station (line 256). -/
structure InitDraws where
  passDraw : ℚ
  delayDraw : ℚ
  estDraw : ℚ
  etaDraw : ℚ
  speedDraw : ℚ
  speed2Draw : ℚ
  startDraw : ℚ
  distDraw : ℚ
deriving DecidableEq, Repr

/-- `String(i + 1).padStart(3, '0')` for the train numbers used here (< 1000). -/
def pad3 (n : ℕ) : String :=
  if n < 10 then "00" ++ toString n
  else if n < 100 then "0" ++ toString n
  else toString n

/-- The `Train` object literal built by `initializeTrains` (lines 234-257),
given the resolved current/next stations and segment progress. -/
def initRecord (line : String) (i : ℕ) (now : ℚ) (d : InitDraws)
    (cur nxt : StationData) (posInSeg : ℚ) : Train :=
  let ls := lineStations line
  let baseDelay := d.delayDraw * 3
  { id := line.take 1 ++ pad3 (i + 1)
    name := line ++ " Local"
    status := if baseDelay > 2 then .Delayed
              else if baseDelay > 5 then .Critical else .OnTime
    route := (ls.getD 0 default).name ++ " - "
               ++ (ls.getD (ls.length - 1) default).name
    line := line
    current := cur.name
    next := nxt.name
    currentStation := cur.name
    nextStation := nxt.name
    estimatedTime := toString (⌊d.estDraw * 8⌋ + 2) ++ " mins"
    eta := now + (d.etaDraw * 8 + 3) * 60000
    delay := baseDelay
    passengers := ⌊d.passDraw * 600 + 200⌋
    speed := 45 + d.speedDraw * 20
    currentSpeed := some (45 + d.speed2Draw * 20)
    lat := cur.lat + (nxt.lat - cur.lat) * posInSeg
    lon := cur.lon + (nxt.lon - cur.lon) * posInSeg
    positionInSegment := posInSeg
    startStation := (ls.getD 0 default).name
    direction := if i % 2 == 0 then Direction.UP else Direction.DOWN
    startTime := now - d.startDraw * 3600000
    distanceToNext := d.distDraw * 2 + 0.5 }

/-- The loop body of `initializeTrains` (lines 214-259) for one train:
line name, the line's index in the `lines` array, the train index `i`,
`Date.now()` and the random draws. `none` when the line has fewer than two
stations (the source pushes no train) or a station lookup is out of range. -/
def initTrain (line : String) (lineIndex i : ℕ) (now : ℚ) (d : InitDraws) :
    Option Train :=
  let ls := lineStations line
  if ls.length < 2 then none else
  let progress := jsMod (now / 60000 + lineIndex * 20 + i * 15) 60 / 60
  let stationProgress := progress * ((ls.length : ℚ) - 1)
  let currentIndex : ℤ := ⌊stationProgress⌋
  let nextIndex : ℤ := min (currentIndex + 1) ((ls.length : ℤ) - 1)
  match jsGet ls currentIndex, jsGet ls nextIndex with
  | some cur, some nxt =>
    some (initRecord line i now d cur nxt (stationProgress - (currentIndex : ℚ)))
  | _, _ => none

/-- `initializeTrains` (lines 206-265): 15 Western, 15 Central Main and 10
Trans-Harbour trains, in `lines`-array order. `draws li i` supplies the
random draws for train `i` of line index `li`. -/
def initTrains (now : ℚ) (draws : ℕ → ℕ → InitDraws) : List Train :=
  ((List.range 15).filterMap (fun i => initTrain "Western" 0 i now (draws 0 i)))
    ++ ((List.range 15).filterMap (fun i => initTrain "Central Main" 1 i now (draws 1 i)))
    ++ ((List.range 10).filterMap (fun i => initTrain "Trans-Harbour" 2 i now (draws 2 i)))

/-- `addAiDecisionLog` (lines 457-463): prepend the timestamped entry and
keep only the first nine previous entries (`prev.slice(0, 9)`). -/
def addAiDecisionLog (message timestamp : String) (prev : List String) : List String :=
  ("[" ++ timestamp ++ "] " ++ message) :: prev.take 9

/-- The per-train `switch` of `performQuickAction` (lines 522-531). -/
def applyQuickActionToTrain (action : String) (train : Train) : Train :=
  if action == "hold" then { train with delay := train.delay + 3, status := .Delayed }
  else if action == "swap" then { train with delay := max 0 (train.delay - 2) }
  else if action == "reroute" then { train with delay := train.delay + 8, status := .Critical }
  else train

/-- `performQuickAction` (lines 518-537): map the action over the registry
(matching trains only) and unconditionally append an `[ACTION]` log line.
Returns the new registry and the new decision log. -/
def performQuickAction (action trainId timestamp : String) (trains : List Train)
    (log : List String) : List Train × List String :=
  (trains.map (fun t => if t.id == trainId then applyQuickActionToTrain action t else t),
   addAiDecisionLog ("[ACTION] " ++ action.toUpper ++ " applied to " ++ trainId)
     timestamp log)

/-- A zero draw for every tick random call. -/
def zeroDraws : TickDraws := ⟨0, 0, 0, 0⟩

/-- A zero draw for every initializer random call. -/
def zeroInitDraws : InitDraws := ⟨0, 0, 0, 0, 0, 0, 0, 0⟩

/-- A concrete well-formed Western train used as a test input: at
Churchgate (index 0) heading to Marine Lines, progress 0, delay 0. -/
def sampleTrain : Train := {
  id := "W001"
  name := "Western Local"
  status := .OnTime
  route := "Churchgate - Virar"
  line := "Western"
  current := "Churchgate"
  next := "Marine Lines"
  currentStation := "Churchgate"
  nextStation := "Marine Lines"
  estimatedTime := "2 mins"
  eta := 0
  delay := 0
  passengers := 500
  speed := 50
  currentSpeed := none
  lat := 18.9322
  lon := 72.8264
  positionInSegment := 0
  startStation := "Churchgate"
  direction := .UP
  startTime := 0
  distanceToNext := 1 }

/-- A well-formed Western train on the last segment (Nallasopara, index 25,
toward Virar, index 26) with progress `0.96`, about to complete its segment. -/
def lastSegTrain : Train :=
  { sampleTrain with
    current := "Nallasopara"
    next := "Virar"
    currentStation := "Nallasopara"
    nextStation := "Virar"
    positionInSegment := 0.96
    lat := 19.4170
    lon := 72.8119 }

/-- A well-formed Western train with only 5 passengers on board. -/
def lowPaxTrain : Train := { sampleTrain with passengers := 5 }

/-- Registry well-formedness of a single train: its line is one of the three
simulated lines, its current station is the `i`-th of that line with `i + 1`
still in range, its next station is the `(i+1)`-th, and its segment progress
lies in `[0, 1)`. This is the invariant the specification claims at every
tick boundary. -/
def TrainWF (t : Train) : Prop :=
  (t.line = "Western" ∨ t.line = "Central Main" ∨ t.line = "Trans-Harbour") ∧
  ∃ i : ℕ, i + 1 < (lineStations t.line).length ∧
    t.current = ((lineStations t.line).getD i default).name ∧
    t.next = ((lineStations t.line).getD (i + 1) default).name ∧
    0 ≤ t.positionInSegment ∧ t.positionInSegment < 1

/-- On each of the three simulated lines, station names are pairwise
distinct, so `findIndex` by name recovers the index. -/
lemma names_nodup (line : String)
    (h : line = "Western" ∨ line = "Central Main" ∨ line = "Trans-Harbour") :
    ((lineStations line).map (fun s => s.name)).Nodup := by
  rcases h with h | h | h <;> subst h <;> decide

/-- `findIndex` by the name of the `i`-th entry returns `i` when names are
pairwise distinct. -/
lemma findIdx_name_getD (ls : List StationData)
    (hnd : (ls.map (fun s => s.name)).Nodup) (i : ℕ) (hi : i < ls.length) :
    ls.findIdx (fun s => s.name == (ls.getD i default).name) = i := by
  induction ls generalizing i with
  | nil => simp at hi
  | cons a tl ih =>
    simp only [List.map_cons, List.nodup_cons] at hnd
    cases i with
    | zero => simp [List.findIdx_cons]
    | succ j =>
      have hj : j < tl.length := by simpa using hi
      have hmem : (tl.getD j default).name ∈ tl.map (fun s => s.name) := by
        rw [List.getD_eq_getElem _ _ hj]
        exact List.mem_map_of_mem _ (List.getElem_mem hj)
      have hne : (a.name == (tl.getD j default).name) = false := by
        rw [beq_eq_false_iff_ne]
        intro h
        exact hnd.1 (h ▸ hmem)
      rw [List.getD_cons_succ, List.findIdx_cons, hne, cond_false, ih hnd.2 j hj]

/-- `jsGet` at an in-range natural index. -/
lemma jsGet_natCast (ls : List StationData) (k : ℕ) (h : k < ls.length) :
    jsGet ls (k : ℤ) = some (ls.getD k default) := by
  simp [jsGet, List.getElem?_eq_getElem h, List.getD_eq_getElem _ _ h]

/-- Full description of one position tick on a well-formed train: the tick
succeeds, the new current/next stations are adjacent entries `j`, `j+1` of
the line (with `j = i` when the segment is not completed, `j = i+1` on an
ordinary arrival, and `j = 0` on arrival at the terminus), progress either
advances by `0.05` or resets to `0`, and delay/status/passengers are updated
by the formulas of lines 368-382. -/
lemma tick_spec (t : Train) (f : DisruptionFactors) (now : ℚ) (d : TickDraws)
    (i : ℕ) (hlen : i + 1 < (lineStations t.line).length)
    (hnd : ((lineStations t.line).map (fun s => s.name)).Nodup)
    (hcur : t.current = ((lineStations t.line).getD i default).name) :
    ∃ t' j, updateTrainPosition f now d t = some t' ∧
      j + 1 < (lineStations t.line).length ∧
      t'.current = ((lineStations t.line).getD j default).name ∧
      t'.next = ((lineStations t.line).getD (j + 1) default).name ∧
      t'.line = t.line ∧ t'.id = t.id ∧
      ((1 ≤ t.positionInSegment + 0.05 ∧ t'.positionInSegment = 0 ∧
         ((i + 2 < (lineStations t.line).length ∧ j = i + 1) ∨
          (i + 2 = (lineStations t.line).length ∧ j = 0))) ∨
       (t.positionInSegment + 0.05 < 1 ∧
         t'.positionInSegment = t.positionInSegment + 0.05 ∧ j = i)) ∧
      t'.delay = t.delay + d.delayDraw * 0.5 * delayMultiplier f ∧
      t'.status = (if 5 < t'.delay then Status.Critical
                   else if 2 < t'.delay then Status.Delayed else Status.OnTime) ∧
      t'.passengers = min (t.passengers + ⌊d.passDraw * 50 - 20⌋) 2000 := by
  have hilen : i < (lineStations t.line).length := by omega
  have hfind : (lineStations t.line).findIdx (fun s => s.name == t.current) = i := by
    rw [hcur]
    exact findIdx_name_getD _ hnd i hilen
  have hjsfind : jsFindIndex (fun s => s.name == t.current) (lineStations t.line)
      = (i : ℤ) := by
    simp only [jsFindIndex, hfind, if_pos hilen]
  have h2 : ¬ (lineStations t.line).length < 2 := by omega
  rcases le_or_lt 1 (t.positionInSegment + 0.05) with hc | hc
  · by_cases hterm : i + 2 = (lineStations t.line).length
    · -- arrival at the terminus: reset to indices 0 and 1
      have e0 := jsGet_natCast (lineStations t.line) 0 (by omega)
      have e1 := jsGet_natCast (lineStations t.line) 1 (by omega)
      rw [show ((0 : ℕ) : ℤ) = (0 : ℤ) from rfl] at e0
      rw [show ((1 : ℕ) : ℤ) = (1 : ℤ) from rfl] at e1
      have hif : ((lineStations t.line).length : ℤ) - 1 ≤ (i : ℤ) + 1 := by omega
      have hup : updateTrainPosition f now d t
          = some (tickedTrain t f now d ((lineStations t.line).getD 0 default)
              ((lineStations t.line).getD 1 default) 0) := by
        simp only [updateTrainPosition, hjsfind, if_neg h2, if_pos hc, if_pos hif,
          e0, e1]
      exact ⟨_, 0, hup, by omega, by simp [tickedTrain], by simp [tickedTrain],
        by simp [tickedTrain], by simp [tickedTrain],
        Or.inl ⟨hc, by simp [tickedTrain], Or.inr ⟨hterm, rfl⟩⟩,
        by simp [tickedTrain], by simp [tickedTrain], by simp [tickedTrain]⟩
    · -- ordinary arrival: advance to indices i+1 and i+2
      have hterm' : i + 2 < (lineStations t.line).length := by omega
      have e0 := jsGet_natCast (lineStations t.line) (i + 1) (by omega)
      have e1 := jsGet_natCast (lineStations t.line) (i + 2) (by omega)
      rw [show ((i + 1 : ℕ) : ℤ) = ((i : ℤ) + 1) by push_cast; ring] at e0
      rw [show ((i + 2 : ℕ) : ℤ) = ((i : ℤ) + 1 + 1) by push_cast; ring] at e1
      have hif : ¬ (((lineStations t.line).length : ℤ) - 1 ≤ (i : ℤ) + 1) := by omega
      have hmin : min ((i : ℤ) + 1 + 1) (((lineStations t.line).length : ℤ) - 1)
          = ((i : ℤ) + 1 + 1) := by omega
      have hup : updateTrainPosition f now d t
          = some (tickedTrain t f now d ((lineStations t.line).getD (i + 1) default)
              ((lineStations t.line).getD (i + 2) default) 0) := by
        simp only [updateTrainPosition, hjsfind, if_neg h2, if_pos hc, if_neg hif,
          hmin, e0, e1]
      exact ⟨_, i + 1, hup, by omega, by simp [tickedTrain], by simp [tickedTrain],
        by simp [tickedTrain], by simp [tickedTrain],
        Or.inl ⟨hc, by simp [tickedTrain], Or.inl ⟨hterm', rfl⟩⟩,
        by simp [tickedTrain], by simp [tickedTrain], by simp [tickedTrain]⟩
  · -- segment not completed: stay on indices i and i+1
    have e0 := jsGet_natCast (lineStations t.line) i hilen
    have e1 := jsGet_natCast (lineStations t.line) (i + 1) hlen
    rw [show ((i + 1 : ℕ) : ℤ) = ((i : ℤ) + 1) by push_cast; ring] at e1
    have hup : updateTrainPosition f now d t
        = some (tickedTrain t f now d ((lineStations t.line).getD i default)
            ((lineStations t.line).getD (i + 1) default)
            (t.positionInSegment + 0.05)) := by
      simp only [updateTrainPosition, hjsfind, if_neg h2, if_neg (not_le.mpr hc),
        e0, e1]
    exact ⟨_, i, hup, hlen, by simp [tickedTrain], by simp [tickedTrain],
      by simp [tickedTrain], by simp [tickedTrain],
      Or.inr ⟨hc, by simp [tickedTrain], rfl⟩,
      by simp [tickedTrain], by simp [tickedTrain], by simp [tickedTrain]⟩

/-- One position tick maps a well-formed train to a well-formed train and
never fails (so every station lookup it performs is in range). -/
lemma tick_preserves_wf (t : Train) (hwf : TrainWF t) (f : DisruptionFactors)
    (now : ℚ) (d : TickDraws) :
    ∃ t', updateTrainPosition f now d t = some t' ∧ TrainWF t' := by
  obtain ⟨hline, i, hlen, hcur, hnext, hp0, hp1⟩ := hwf
  obtain ⟨t', j, hup, hjlen, hcur', hnext', hlineeq, hid, hcase, hdel, hst, hpass⟩ :=
    tick_spec t f now d i hlen (names_nodup _ hline) hcur
  refine ⟨t', hup, ?_⟩
  rw [TrainWF, hlineeq]
  refine ⟨hline, j, hjlen, hcur', hnext', ?_, ?_⟩
  · rcases hcase with ⟨_, hp, _⟩ | ⟨_, hp, _⟩
    · rw [hp]
    · rw [hp]
      linarith
  · rcases hcase with ⟨_, hp, _⟩ | ⟨hlt, hp, _⟩
    · rw [hp]
      norm_num
    · rw [hp]
      exact hlt

/-- The fractional part of `x/60` equals the source's
`(x % 60) / 60` for nonnegative `x`. -/
lemma jsMod_div_sixty (x : ℚ) (hx : 0 ≤ x) :
    jsMod x 60 / 60 = Int.fract (x / 60) := by
  have hq : ¬ (x / 60 < 0) := by
    rw [not_lt]
    positivity
  rw [jsMod, jsTrunc, if_neg hq, Int.fract]
  ring

/-- The initializer produces a well-formed train on each of the three
simulated lines, for every nonnegative clock value and any random draws. -/
lemma initTrain_wf (line : String)
    (hline : line = "Western" ∨ line = "Central Main" ∨ line = "Trans-Harbour")
    (lineIndex i : ℕ) (now : ℚ) (hnow : 0 ≤ now) (d : InitDraws) :
    ∃ t, initTrain line lineIndex i now d = some t ∧ TrainWF t ∧ t.line = line := by
  have hlen2 : 2 ≤ (lineStations line).length := by
    rcases hline with h | h | h <;> subst h <;> decide
  have hx : (0 : ℚ) ≤ now / 60000 + lineIndex * 20 + i * 15 := by positivity
  set x : ℚ := now / 60000 + lineIndex * 20 + i * 15 with hxdef
  have hprog : jsMod x 60 / 60 = Int.fract (x / 60) := jsMod_div_sixty x hx
  set prog : ℚ := jsMod x 60 / 60 with hprogdef
  have hp0 : 0 ≤ prog := by
    rw [hprog]
    exact Int.fract_nonneg _
  have hp1 : prog < 1 := by
    rw [hprog]
    exact Int.fract_lt_one _
  set sp : ℚ := prog * ((lineStations line).length - 1) with hspdef
  have hlenq : (1 : ℚ) ≤ ((lineStations line).length : ℚ) - 1 := by
    have : (2 : ℚ) ≤ ((lineStations line).length : ℚ) := by exact_mod_cast hlen2
    linarith
  have hsp0 : 0 ≤ sp := by
    apply mul_nonneg hp0
    linarith
  have hsp1 : sp < ((lineStations line).length : ℚ) - 1 := by
    calc sp < 1 * (((lineStations line).length : ℚ) - 1) := by
              apply mul_lt_mul_of_pos_right hp1
              linarith
    _ = ((lineStations line).length : ℚ) - 1 := one_mul _
  have hci0 : 0 ≤ ⌊sp⌋ := Int.floor_nonneg.mpr hsp0
  have hci1 : ⌊sp⌋ < ((lineStations line).length : ℤ) - 1 := by
    rw [Int.floor_lt]
    push_cast
    exact hsp1
  set k : ℕ := ⌊sp⌋.toNat with hkdef
  have hk : (k : ℤ) = ⌊sp⌋ := Int.toNat_of_nonneg hci0
  have hklen : k + 1 < (lineStations line).length := by omega
  have hmin : min (⌊sp⌋ + 1) (((lineStations line).length : ℤ) - 1) = ⌊sp⌋ + 1 := by
    omega
  have e0 : jsGet (lineStations line) ⌊sp⌋
      = some ((lineStations line).getD k default) := by
    rw [← hk]
    exact jsGet_natCast _ k (by omega)
  have e1 : jsGet (lineStations line) (⌊sp⌋ + 1)
      = some ((lineStations line).getD (k + 1) default) := by
    rw [show ⌊sp⌋ + 1 = ((k + 1 : ℕ) : ℤ) by omega]
    exact jsGet_natCast _ (k + 1) hklen
  have h2 : ¬ (lineStations line).length < 2 := by omega
  have hup : initTrain line lineIndex i now d
      = some (initRecord line i now d ((lineStations line).getD k default)
          ((lineStations line).getD (k + 1) default) (sp - (⌊sp⌋ : ℚ))) := by
    simp only [initTrain, if_neg h2, ← hxdef, ← hprogdef, ← hspdef, hmin, e0, e1]
  have hfr0 : 0 ≤ sp - (⌊sp⌋ : ℚ) := by
    have := Int.floor_le sp
    linarith
  have hfr1 : sp - (⌊sp⌋ : ℚ) < 1 := by
    have := Int.lt_floor_add_one sp
    linarith
  refine ⟨_, hup, ⟨?_, k, ?_, ?_, ?_, ?_, ?_⟩, ?_⟩
  · simp [initRecord, hline]
  · simp only [initRecord]
    exact hklen
  all_goals simp [initRecord, hfr0, hfr1, Int.fract_nonneg, Int.fract_lt_one]

/-- `sampleTrain` is well-formed. -/
lemma sampleTrain_wf : TrainWF sampleTrain := by
  refine ⟨Or.inl rfl, 0, by decide, by decide, by decide, ?_, ?_⟩ <;>
    with_unfolding_all decide

/-- Incrementing a factor sets exactly that level to `min (level + 1) 5`. -/
lemma getFactor_add_self (g : FactorName) (df : DisruptionFactors) :
    getFactor g (addDisruptionFactor g df) = min (getFactor g df + 1) 5 := by
  cases g <;> rfl

/-- Incrementing one factor leaves every other level unchanged. -/
lemma getFactor_add_ne (g f : FactorName) (df : DisruptionFactors) (h : g ≠ f) :
    getFactor g (addDisruptionFactor f df) = getFactor g df := by
  cases g <;> cases f <;> simp_all [getFactor, addDisruptionFactor]

/-- Every factor level reachable by increments from a state whose levels are
naturals `≤ 5` is itself a natural `≤ 5`. -/
lemma factor_nat_invariant (l : List FactorName) (df : DisruptionFactors)
    (hdf : ∀ g, ∃ n : ℕ, n ≤ 5 ∧ getFactor g df = n) :
    ∀ g, ∃ n : ℕ, n ≤ 5 ∧ getFactor g (applyIncrements l df) = n := by
  induction l generalizing df with
  | nil => exact hdf
  | cons f tl ih =>
    apply ih
    intro g
    by_cases hgf : g = f
    · subst hgf
      obtain ⟨n, hn5, hn⟩ := hdf g
      refine ⟨min (n + 1) 5, by omega, ?_⟩
      rw [getFactor_add_self, hn]
      push_cast
      rfl
    · obtain ⟨n, hn5, hn⟩ := hdf g
      exact ⟨n, hn5, by rwa [getFactor_add_ne g f df hgf]⟩

/-- Claim C5: every train produced by initialization is well-formed, and one
position tick maps any well-formed train to a well-formed train while
succeeding (every station lookup in range). Well-formedness (`TrainWF`)
states `0 ≤ progress < 1` and that the current and next stations sit at the
distinct in-bounds indices `i` and `i + 1` of the train's line. -/
theorem reachable_invariant :
    (∀ (now : ℚ), 0 ≤ now → ∀ (draws : ℕ → ℕ → InitDraws),
      ∀ t ∈ initTrains now draws, TrainWF t) ∧
    (∀ t, TrainWF t → ∀ (f : DisruptionFactors) (now : ℚ) (d : TickDraws),
      ∃ t', updateTrainPosition f now d t = some t' ∧ TrainWF t') := by
  constructor
  · intro now hnow draws t ht
    simp only [initTrains, List.mem_append, List.mem_filterMap, List.mem_range] at ht
    rcases ht with (⟨i, _, hi⟩ | ⟨i, _, hi⟩) | ⟨i, _, hi⟩
    · obtain ⟨t2, he, hwf, -⟩ :=
        initTrain_wf "Western" (Or.inl rfl) 0 i now hnow (draws 0 i)
      rw [he, Option.some_inj] at hi
      rwa [← hi]
    · obtain ⟨t2, he, hwf, -⟩ :=
        initTrain_wf "Central Main" (Or.inr (Or.inl rfl)) 1 i now hnow (draws 1 i)
      rw [he, Option.some_inj] at hi
      rwa [← hi]
    · obtain ⟨t2, he, hwf, -⟩ :=
        initTrain_wf "Trans-Harbour" (Or.inr (Or.inr rfl)) 2 i now hnow (draws 2 i)
      rw [he, Option.some_inj] at hi
      rwa [← hi]
  · exact fun t hwf f now d => tick_preserves_wf t hwf f now d

/-- Witness for C5: the invariant applied to a concrete well-formed train. -/
theorem reachable_invariant_witness :
    (updateTrainPosition initialDisruptionFactors 0 zeroDraws sampleTrain).isSome
      = true := by
  obtain ⟨t', hup, -⟩ := reachable_invariant.2 sampleTrain sampleTrain_wf
    initialDisruptionFactors 0 zeroDraws
  rw [hup]
  rfl

/-- Claim C3: after a position tick on a train whose line is non-degenerate,
the new status is the pure threshold function of the new delay:
Critical iff `delay > 5`, Delayed iff `2 < delay ≤ 5`, else OnTime. -/
theorem status_derivation (t : Train) (f : DisruptionFactors) (now : ℚ)
    (d : TickDraws) (t' : Train)
    (hlen : 2 ≤ (lineStations t.line).length)
    (h : updateTrainPosition f now d t = some t') :
    (t'.status = Status.Critical ↔ 5 < t'.delay) ∧
    (t'.status = Status.Delayed ↔ 2 < t'.delay ∧ t'.delay ≤ 5) ∧
    (t'.delay ≤ 2 → t'.status = Status.OnTime) := by
  have h2 : ¬ (lineStations t.line).length < 2 := by omega
  simp only [updateTrainPosition, if_neg h2] at h
  split at h
  case _ cur nxt heq1 heq2 =>
    rw [Option.some_inj] at h
    subst h
    simp only [tickedTrain]
    set nd := t.delay + d.delayDraw * 0.5 * delayMultiplier f with hnd
    by_cases h5 : (5 : ℚ) < nd
    · rw [if_pos h5]
      refine ⟨⟨fun _ => h5, fun _ => rfl⟩, ⟨fun hc => ?_, fun hc => absurd h5 ?_⟩, ?_⟩
      · exact absurd hc (by simp)
      · rw [not_lt]
        exact hc.2
      · intro hle
        exact absurd h5 (by linarith)
    · rw [if_neg h5]
      by_cases h2' : (2 : ℚ) < nd
      · rw [if_pos h2']
        refine ⟨⟨fun hc => absurd hc (by simp), fun hc => absurd hc h5⟩,
          ⟨fun _ => ⟨h2', not_lt.mp h5⟩, fun _ => rfl⟩, ?_⟩
        intro hle
        exact absurd h2' (by linarith)
      · rw [if_neg h2']
        exact ⟨⟨fun hc => absurd hc (by simp), fun hc => absurd hc h5⟩,
          ⟨fun hc => absurd hc (by simp), fun hc => absurd hc.1 h2'⟩,
          fun _ => rfl⟩
  case _ =>
    exact absurd h (by simp)

/-- Witness for C3 at a concrete tick result. -/
theorem status_derivation_witness :
    ((updateTrainPosition initialDisruptionFactors 0 zeroDraws sampleTrain).getD
        sampleTrain).status = Status.OnTime := by
  obtain ⟨hline, i, hlen, hcur, hnext, hp0, hp1⟩ := sampleTrain_wf
  obtain ⟨t', j, hup, -, -, -, -, -, -, hdel, -, -⟩ :=
    tick_spec sampleTrain initialDisruptionFactors 0 zeroDraws i hlen
      (names_nodup _ hline) hcur
  have h := status_derivation sampleTrain initialDisruptionFactors 0 zeroDraws t'
    (by decide) hup
  rw [hup, Option.getD_some]
  apply h.2.2
  rw [hdel]
  norm_num [sampleTrain, zeroDraws]

/-- Claim C6: a train whose segment completes while its advanced index is the
last station index of its line is reset to indices 0 and 1 with progress 0,
and the tick succeeds (no out-of-bounds index). -/
theorem terminal_wraparound (t : Train) (f : DisruptionFactors) (now : ℚ)
    (d : TickDraws) (i : ℕ)
    (hline : t.line = "Western" ∨ t.line = "Central Main" ∨ t.line = "Trans-Harbour")
    (hcur : t.current = ((lineStations t.line).getD i default).name)
    (hi : i + 2 = (lineStations t.line).length)
    (hdone : 1 ≤ t.positionInSegment + 0.05) :
    ∃ t', updateTrainPosition f now d t = some t' ∧
      t'.current = ((lineStations t.line).getD 0 default).name ∧
      t'.next = ((lineStations t.line).getD 1 default).name ∧
      t'.positionInSegment = 0 := by
  obtain ⟨t', j, hup, hjlen, hcur', hnext', -, -, hcase, -, -, -⟩ :=
    tick_spec t f now d i (by omega) (names_nodup _ hline) hcur
  rcases hcase with ⟨-, hp, hj⟩ | ⟨hlt, -, -⟩
  · rcases hj with ⟨hbad, -⟩ | ⟨-, hj0⟩
    · omega
    · subst hj0
      exact ⟨t', hup, hcur', by simpa using hnext', hp⟩
  · linarith

/-- Witness for C6: a Western train completing the Nallasopara-Virar segment
restarts at Churchgate toward Marine Lines. -/
theorem terminal_wraparound_witness :
    ((updateTrainPosition initialDisruptionFactors 0 zeroDraws lastSegTrain).getD
      sampleTrain).current = "Churchgate" ∧
    ((updateTrainPosition initialDisruptionFactors 0 zeroDraws lastSegTrain).getD
      sampleTrain).next = "Marine Lines" ∧
    ((updateTrainPosition initialDisruptionFactors 0 zeroDraws lastSegTrain).getD
      sampleTrain).positionInSegment = 0 := by
  obtain ⟨t', hup, h1, h2, h3⟩ := terminal_wraparound lastSegTrain
    initialDisruptionFactors 0 zeroDraws 25 (Or.inl rfl) (by decide) (by decide)
    (by with_unfolding_all decide)
  rw [hup]
  simp only [Option.getD_some]
  refine ⟨?_, ?_, h3⟩
  · rw [h1]
    decide
  · rw [h2]
    decide

/-- Claim C9 (amended): a position tick on a well-formed train adds exactly
`0.05` to segment progress when this stays below 1, and otherwise resets
progress to 0; with nonnegative factor levels and a nonnegative draw the
delay never decreases and stays nonnegative. -/
theorem tick_progress_delay (t : Train) (f : DisruptionFactors) (now : ℚ)
    (d : TickDraws) (hwf : TrainWF t)
    (hf : 0 ≤ f.rushHour ∧ 0 ≤ f.weather ∧ 0 ≤ f.junctionCongestion ∧
      0 ≤ f.equipmentReliability)
    (hd : 0 ≤ d.delayDraw) :
    ∃ t', updateTrainPosition f now d t = some t' ∧
      (t.positionInSegment + 0.05 < 1 →
        t'.positionInSegment = t.positionInSegment + 0.05) ∧
      (1 ≤ t.positionInSegment + 0.05 → t'.positionInSegment = 0) ∧
      t.delay ≤ t'.delay ∧ (0 ≤ t.delay → 0 ≤ t'.delay) := by
  obtain ⟨hline, i, hlen, hcur, hnext, hp0, hp1⟩ := hwf
  obtain ⟨t', j, hup, -, -, -, -, -, hcase, hdel, -, -⟩ :=
    tick_spec t f now d i hlen (names_nodup _ hline) hcur
  have hmult : 1 ≤ delayMultiplier f := by
    have m1 : 0 ≤ f.rushHour * 0.5 := mul_nonneg hf.1 (by norm_num)
    have m2 : 0 ≤ f.weather * 0.3 := mul_nonneg hf.2.1 (by norm_num)
    have m3 : 0 ≤ f.junctionCongestion * 0.4 := mul_nonneg hf.2.2.1 (by norm_num)
    have m4 : 0 ≤ f.equipmentReliability * 0.6 := mul_nonneg hf.2.2.2 (by norm_num)
    rw [delayMultiplier]
    linarith
  have hinc : 0 ≤ d.delayDraw * 0.5 * delayMultiplier f :=
    mul_nonneg (mul_nonneg hd (by norm_num)) (by linarith)
  refine ⟨t', hup, ?_, ?_, ?_, ?_⟩
  · intro hlt
    rcases hcase with ⟨hge, -, -⟩ | ⟨-, hp, -⟩
    · linarith
    · exact hp
  · intro hge
    rcases hcase with ⟨-, hp, -⟩ | ⟨hlt, -, -⟩
    · exact hp
    · linarith
  · rw [hdel]
    linarith
  · intro h0
    rw [hdel]
    linarith

/-- Witness for C9's amended theorem at a concrete train and draws. -/
theorem tick_progress_delay_witness :
    ((updateTrainPosition initialDisruptionFactors 0 zeroDraws sampleTrain).getD
      sampleTrain).positionInSegment = sampleTrain.positionInSegment + 0.05 := by
  obtain ⟨t', hup, hlt, -, -, -⟩ := tick_progress_delay sampleTrain
    initialDisruptionFactors 0 zeroDraws sampleTrain_wf
    (by refine ⟨?_, ?_, ?_, ?_⟩ <;> with_unfolding_all decide)
    (by with_unfolding_all decide)
  rw [hup, Option.getD_some]
  exact hlt (by with_unfolding_all decide)

/-- Counterexample for C9 as stated: initializing the Western line at
`Date.now() = 138000` puts train `W001` at segment progress `299/300`; the
first position tick then resets its progress to `0`, which is not an
increase by the fixed increment `0.05`. -/
theorem progress_increment_cex :
    ((initTrain "Western" 0 0 138000 zeroInitDraws).getD sampleTrain).positionInSegment
      = 299/300 ∧
    (((initTrain "Western" 0 0 138000 zeroInitDraws).bind
        (updateTrainPosition initialDisruptionFactors 138000 zeroDraws)).getD
      sampleTrain).positionInSegment = 0 ∧
    (0 : ℚ) ≠ 299/300 + 0.05 := by
  refine ⟨?_, ?_, ?_⟩ <;> with_unfolding_all decide

/-- Claim C2 (amended): a position tick sets the passenger count to
`min (old + delta) 2000` — capped above at 2000 but not clamped below at
0 — for an integer delta in `[-20, 30)`. -/
theorem passengers_update (t : Train) (f : DisruptionFactors) (now : ℚ)
    (d : TickDraws) (t' : Train)
    (hlen : 2 ≤ (lineStations t.line).length)
    (h : updateTrainPosition f now d t = some t')
    (hd0 : 0 ≤ d.passDraw) (hd1 : d.passDraw < 1) :
    t'.passengers = min (t.passengers + ⌊d.passDraw * 50 - 20⌋) 2000 ∧
    -20 ≤ ⌊d.passDraw * 50 - 20⌋ ∧ ⌊d.passDraw * 50 - 20⌋ < 30 := by
  have h2 : ¬ (lineStations t.line).length < 2 := by omega
  simp only [updateTrainPosition, if_neg h2] at h
  split at h
  case _ cur nxt heq1 heq2 =>
    rw [Option.some_inj] at h
    subst h
    refine ⟨by simp [tickedTrain], ?_, ?_⟩
    · rw [Int.le_floor]
      push_cast
      nlinarith
    · rw [Int.floor_lt]
      push_cast
      nlinarith
  case _ =>
    exact absurd h (by simp)

/-- Witness for C2's amended theorem at a concrete train and draws. -/
theorem passengers_update_witness :
    ((updateTrainPosition initialDisruptionFactors 0 zeroDraws sampleTrain).getD
        sampleTrain).passengers
      = min (sampleTrain.passengers + ⌊zeroDraws.passDraw * 50 - 20⌋) 2000 := by
  obtain ⟨t', hup, -⟩ := tick_preserves_wf sampleTrain sampleTrain_wf
    initialDisruptionFactors 0 zeroDraws
  rw [hup, Option.getD_some]
  exact (passengers_update sampleTrain initialDisruptionFactors 0 zeroDraws t'
    (by decide) hup (by with_unfolding_all decide) (by with_unfolding_all decide)).1

/-- Counterexample for C2 as stated: a tick on a well-formed train carrying 5
passengers with the minimal delta draw (`delta = -20`) yields a passenger
count of `-15`, which is negative — the code's `Math.min(count + delta, 2000)`
has no lower clamp at 0, so the count does not equal
`clamp(count + delta, 0, 2000)` and leaves `[0, 2000]`. -/
theorem passengers_clamp_cex :
    ((updateTrainPosition initialDisruptionFactors 0 zeroDraws lowPaxTrain).getD
      sampleTrain).passengers = -15 ∧ ((-15 : ℤ) < 0) := by
  constructor <;> with_unfolding_all decide

/-- Claim C4: the delay multiplier used by the position tick is
`1 + 0.5·rushHour + 0.3·weather + 0.4·junctionCongestion +
0.6·equipmentReliability`; with `rushHour = 5` and the other three factors 0
it equals `3.5`. -/
theorem delay_multiplier_formula (f : DisruptionFactors)
    (h1 : 0 ≤ f.rushHour ∧ f.rushHour ≤ 5) (h2 : 0 ≤ f.weather ∧ f.weather ≤ 5)
    (h3 : 0 ≤ f.junctionCongestion ∧ f.junctionCongestion ≤ 5)
    (h4 : 0 ≤ f.equipmentReliability ∧ f.equipmentReliability ≤ 5) :
    delayMultiplier f = 1 + 0.5 * f.rushHour + 0.3 * f.weather
        + 0.4 * f.junctionCongestion + 0.6 * f.equipmentReliability ∧
    (f.rushHour = 5 → f.weather = 0 → f.junctionCongestion = 0 →
      f.equipmentReliability = 0 → delayMultiplier f = 3.5) := by
  constructor
  · rw [delayMultiplier]
    ring
  · intro ha hb hc hd
    rw [delayMultiplier, ha, hb, hc, hd]
    norm_num

/-- Witness for C4: the rush-hour-5 scenario evaluates to 3.5. -/
theorem delay_multiplier_formula_witness :
    delayMultiplier ⟨5, 0, 0, 0, 0, 0, 0, 0⟩ = 3.5 :=
  (delay_multiplier_formula ⟨5, 0, 0, 0, 0, 0, 0, 0⟩ (by constructor <;> norm_num)
    (by constructor <;> norm_num) (by constructor <;> norm_num)
    (by constructor <;> norm_num)).2 rfl rfl rfl rfl

/-- Claim C1 (amended): a quick action naming a train id absent from the
registry leaves every train unchanged, but still appends one timestamped
`[ACTION]` line to the decision log — the log is not left unchanged. -/
theorem unknown_id_noop_but_logs (action trainId ts : String) (trains : List Train)
    (log : List String)
    (hact : action = "hold" ∨ action = "swap" ∨ action = "reroute")
    (hid : ∀ t ∈ trains, t.id ≠ trainId) :
    (performQuickAction action trainId ts trains log).1 = trains ∧
    (performQuickAction action trainId ts trains log).2
      = ("[" ++ ts ++ "] "
          ++ ("[ACTION] " ++ action.toUpper ++ " applied to " ++ trainId))
        :: log.take 9 := by
  refine ⟨?_, rfl⟩
  simp only [performQuickAction]
  have hmap : ∀ t ∈ trains,
      (if t.id == trainId then applyQuickActionToTrain action t else t) = id t := by
    intro t ht
    rw [if_neg]
    · rfl
    · simp [hid t ht]
  rw [List.map_congr_left hmap, List.map_id]

/-- Witness for C1's amended theorem at a concrete registry and log. -/
theorem unknown_id_noop_but_logs_witness :
    (performQuickAction "swap" "C999" "09:00:00" [sampleTrain] ["x"]).1
      = [sampleTrain] ∧
    (performQuickAction "swap" "C999" "09:00:00" [sampleTrain] ["x"]).2
      = ("[" ++ "09:00:00" ++ "] "
          ++ ("[ACTION] " ++ "swap".toUpper ++ " applied to " ++ "C999"))
        :: (["x"] : List String).take 9 :=
  unknown_id_noop_but_logs "swap" "C999" "09:00:00" [sampleTrain] ["x"]
    (Or.inr (Or.inl rfl)) (by decide)

/-- Counterexample for C1 as stated: `performQuickAction('hold', 'X999')` on
a registry without id `X999` leaves the trains unchanged but appends an
`[ACTION] HOLD applied to X999` line, so the decision log content changes. -/
theorem unknown_id_logs_cex :
    (performQuickAction "hold" "X999" "10:00:00" [sampleTrain] []).1
      = [sampleTrain] ∧
    (performQuickAction "hold" "X999" "10:00:00" [sampleTrain] []).2
      = ["[10:00:00] [ACTION] HOLD applied to X999"] ∧
    (["[10:00:00] [ACTION] HOLD applied to X999"] : List String) ≠ [] := by
  have hids : (sampleTrain.id == "X999") = false := by decide
  refine ⟨?_, ?_, ?_⟩
  · simp only [performQuickAction, List.map_cons, List.map_nil, hids,
      Bool.false_eq_true, if_false]
  · with_unfolding_all decide
  · decide

/-- Claim C7: on a train present in the registry under the given id, `hold`
adds 3 minutes of delay and forces Delayed, `swap` sets
`delay = max 0 (delay - 2)` (so the delay strictly decreases or is 0), and
`reroute` adds 8 minutes and forces Critical; the updated train is in the
registry returned by `performQuickAction`. -/
theorem quick_action_semantics (action trainId ts : String) (trains : List Train)
    (log : List String) (t : Train) (hmem : t ∈ trains) (hid : t.id = trainId) :
    applyQuickActionToTrain "hold" t
        = { t with delay := t.delay + 3, status := Status.Delayed } ∧
    applyQuickActionToTrain "swap" t = { t with delay := max 0 (t.delay - 2) } ∧
    ((applyQuickActionToTrain "swap" t).delay < t.delay
      ∨ (applyQuickActionToTrain "swap" t).delay = 0) ∧
    applyQuickActionToTrain "reroute" t
        = { t with delay := t.delay + 8, status := Status.Critical } ∧
    applyQuickActionToTrain action t ∈ (performQuickAction action trainId ts trains log).1 := by
  refine ⟨rfl, rfl, ?_, rfl, ?_⟩
  · by_cases h0 : t.delay ≤ 2
    · right
      show max 0 (t.delay - 2) = 0
      rw [max_eq_left]
      linarith
    · left
      show max 0 (t.delay - 2) < t.delay
      rw [max_lt_iff]
      constructor <;> linarith
  · simp only [performQuickAction]
    have h := List.mem_map_of_mem
      (fun t => if t.id == trainId then applyQuickActionToTrain action t else t) hmem
    simpa [hid] using h

/-- Witness for C7 at a concrete existing train. -/
theorem quick_action_semantics_witness :
    applyQuickActionToTrain "hold" sampleTrain
        = { sampleTrain with delay := sampleTrain.delay + 3, status := Status.Delayed } ∧
    applyQuickActionToTrain "swap" sampleTrain
        = { sampleTrain with delay := max 0 (sampleTrain.delay - 2) } ∧
    ((applyQuickActionToTrain "swap" sampleTrain).delay < sampleTrain.delay
      ∨ (applyQuickActionToTrain "swap" sampleTrain).delay = 0) ∧
    applyQuickActionToTrain "reroute" sampleTrain
        = { sampleTrain with delay := sampleTrain.delay + 8, status := Status.Critical } ∧
    applyQuickActionToTrain "hold" sampleTrain
      ∈ (performQuickAction "hold" "W001" "10:00:00" [sampleTrain] []).1 :=
  quick_action_semantics "hold" "W001" "10:00:00" [sampleTrain] [] sampleTrain
    (List.mem_singleton.mpr rfl) rfl

/-- Claim C8: starting from the all-zero factors, any sequence of user
increment calls keeps every level an integer in `[0, 5]`; one further
increment of a factor raises its level by 1 when below 5 and leaves it at 5
when it is 5. -/
theorem factor_bounds (l : List FactorName) (g : FactorName) :
    (∃ n : ℕ, n ≤ 5 ∧ getFactor g (applyIncrements l initialDisruptionFactors) = n) ∧
    (getFactor g (applyIncrements l initialDisruptionFactors) < 5 →
      getFactor g (addDisruptionFactor g (applyIncrements l initialDisruptionFactors))
        = getFactor g (applyIncrements l initialDisruptionFactors) + 1) ∧
    (getFactor g (applyIncrements l initialDisruptionFactors) = 5 →
      getFactor g (addDisruptionFactor g (applyIncrements l initialDisruptionFactors))
        = 5) := by
  have hinv := factor_nat_invariant l initialDisruptionFactors
    (fun g => ⟨0, by norm_num, by cases g <;> rfl⟩) g
  refine ⟨hinv, ?_, ?_⟩
  · intro hlt
    obtain ⟨n, hn5, hn⟩ := hinv
    rw [getFactor_add_self, hn]
    rw [hn] at hlt
    have hn4 : n ≤ 4 := by
      have : n < 5 := by exact_mod_cast hlt
      omega
    rw [min_eq_left]
    have : (n : ℚ) ≤ 4 := by exact_mod_cast hn4
    linarith
  · intro h5
    rw [getFactor_add_self, h5]
    norm_num

/-- Witness for C8: one increment from zero gives level 1; a further
increment gives 2. -/
theorem factor_bounds_witness :
    getFactor FactorName.rushHour
      (addDisruptionFactor FactorName.rushHour
        (applyIncrements [FactorName.rushHour] initialDisruptionFactors)) = 2 := by
  have h := factor_bounds [FactorName.rushHour] FactorName.rushHour
  have hv : getFactor FactorName.rushHour
      (applyIncrements [FactorName.rushHour] initialDisruptionFactors) = 1 := by
    with_unfolding_all decide
  rw [h.2.1 (by rw [hv]; norm_num), hv]
  norm_num

/-- Claim C10: appending to the decision log prepends the timestamped entry,
keeps only the first nine previous entries (length never exceeds 10, oldest
dropped on overflow), and every retained previous entry reappears unchanged,
shifted by one position. -/
theorem decision_log_append (msg ts : String) (l : List String) :
    addAiDecisionLog msg ts l = ("[" ++ ts ++ "] " ++ msg) :: l.take 9 ∧
    (addAiDecisionLog msg ts l).length = 1 + min 9 l.length ∧
    (addAiDecisionLog msg ts l).length ≤ 10 ∧
    (addAiDecisionLog msg ts l).head? = some ("[" ++ ts ++ "] " ++ msg) ∧
    (∀ i : ℕ, i < 9 → (addAiDecisionLog msg ts l)[i + 1]? = l[i]?) := by
  refine ⟨rfl, ?_, ?_, rfl, ?_⟩
  · simp only [addAiDecisionLog, List.length_cons, List.length_take]
    omega
  · simp only [addAiDecisionLog, List.length_cons, List.length_take]
    omega
  · intro i hi
    simp only [addAiDecisionLog, List.getElem?_cons_succ, List.getElem?_take]
    rw [if_pos hi]

/-- Witness for C10 at a concrete log. -/
theorem decision_log_append_witness :
    (addAiDecisionLog "m" "t" ["a", "b"]).length = 3 ∧
    (addAiDecisionLog "m" "t" ["a", "b"])[1]? = some "a" := by
  have h := decision_log_append "m" "t" ["a", "b"]
  refine ⟨?_, ?_⟩
  · rw [h.2.1]
    rfl
  · rw [h.2.2.2.2 0 (by norm_num)]
    rfl

end MumbaiRailway
